import Mathlib

/-!
# THORChain application layer (`app/app.go`)

A shallow embedding of the composition layer of the THORChain node: the genesis
initialiser `initChainer`, the block hooks `BeginBlocker` and `EndBlocker`, the
state export `ExportAppStateAndValidators` and the wiring done by
`NewThorchainApp`.

The module keepers, the codec and the account mapper are imported packages: they
are parameters of the embedding (`Env`).  Every call that receives the context
may write to the store, so it is modelled by explicit state passing, and every
such call made by the application is recorded in a trace (`Call`).
-/

namespace Thorchain

/-! ## Data model -/

/-- Modelled from the spec: the account record (`auth.BaseAccount` is declared outside
`app.go`): address, associated balances, sequence number and the assigned account number. -/
structure Account where
  address : String
  coins : List (String × Int)
  sequence : Int
  accountNumber : Int
deriving DecidableEq, Repr

/-- The types of the imported packages that `app.go` only passes around. -/
structure Types where
  /-- The `sdk.Context`: the store as seen by the keepers. -/
  Context : Type
  /-- Serialised data: `[]byte`, `json.RawMessage`. -/
  Bytes : Type
  /-- The `error` values. -/
  Error : Type
  /-- The `GenesisAccount` of the genesis document. -/
  GenesisAccount : Type
  /-- The `stake.GenesisState` sub-document. -/
  StakeGenesis : Type
  /-- The `gov.GenesisState` sub-document. -/
  GovGenesis : Type
  /-- The liquidity-pool sub-document. -/
  CLPGenesis : Type
  /-- The `abci.RequestBeginBlock`. -/
  RequestBeginBlock : Type
  /-- The `abci.RequestEndBlock`. -/
  RequestEndBlock : Type
  /-- One tag, a `cmn.KVPair`. -/
  KVPair : Type
  /-- The `abci.Validator` of a validator update. -/
  Validator : Type
  /-- The `tmtypes.GenesisValidator`. -/
  GenesisValidator : Type
  /-- The second result of `gov.EndBlocker`, which `EndBlocker` discards. -/
  GovEndResult : Type

/-- The `GenesisState` document, with the fields `app.go` reads and writes. -/
structure GenesisState (T : Types) where
  accounts : List T.GenesisAccount
  stakeData : T.StakeGenesis
  clpGenesis : T.CLPGenesis

/-- The `sdk.Tags`: a list of key-value pairs (`EndBlocker` assigns them to the
response field without conversion). -/
abbrev Tags (T : Types) := List T.KVPair

/-- Modelled from the spec: `sdk.Tags.ToKVPairs`, declared in the imported SDK: the
collected tags, retyped as key-value pairs, in the order they were emitted. -/
def Tags.ToKVPairs {T : Types} (tags : Tags T) : List T.KVPair := tags

/-- The imported collaborators of the application.  A function that takes the context
returns the context it leaves behind. -/
structure Env (T : Types) where
  /-- `app.cdc.UnmarshalJSON` into a `GenesisState`. -/
  unmarshalJSON : T.Bytes → Except T.Error (GenesisState T)
  /-- `wire.MarshalJSONIndent(app.cdc, genState)`. -/
  marshalJSONIndent : GenesisState T → Except T.Error T.Bytes
  /-- `GenesisAccount.ToAccount`. -/
  toAccount : T.GenesisAccount → Account
  /-- `NewGenesisAccountI`. -/
  newGenesisAccountI : Account → T.GenesisAccount
  /-- `accountMapper.GetNextAccountNumber`. -/
  getNextAccountNumber : T.Context → Int × T.Context
  /-- `accountMapper.SetAccount`. -/
  setAccount : T.Context → Account → T.Context
  /-- The accounts that the account mapper holds, in the order its iterator yields them. -/
  storedAccounts : T.Context → List Account
  /-- `stake.InitGenesis`: the context it leaves and the error it returns, if any. -/
  stakeInitGenesis : T.Context → T.StakeGenesis → T.Context × Option T.Error
  /-- `stake.WriteGenesis`. -/
  stakeWriteGenesis : T.Context → T.StakeGenesis
  /-- `stake.WriteValidators`. -/
  stakeWriteValidators : T.Context → List T.GenesisValidator
  /-- `stake.EndBlocker`. -/
  stakeEndBlocker : T.Context → List T.Validator × T.Context
  /-- `gov.DefaultGenesisState()`. -/
  govDefaultGenesisState : T.GovGenesis
  /-- `gov.InitGenesis` (it returns nothing). -/
  govInitGenesis : T.Context → T.GovGenesis → T.Context
  /-- `gov.EndBlocker`: the tags and a second result. -/
  govEndBlocker : T.Context → (Tags T × T.GovEndResult) × T.Context
  /-- `clp.InitGenesis`: the context it leaves and the error it returns, if any. -/
  clpInitGenesis : T.Context → T.CLPGenesis → T.Context × Option T.Error
  /-- `clp.WriteGenesis`. -/
  clpWriteGenesis : T.Context → T.CLPGenesis
  /-- `slashing.BeginBlocker`. -/
  slashingBeginBlocker : T.Context → T.RequestBeginBlock → Tags T × T.Context

/-- A call of the application on a collaborator that receives the context. -/
inductive Call (T : Types) where
  | getNextAccountNumber : Call T
  | setAccount : Account → Call T
  | stakeInitGenesis : T.StakeGenesis → Call T
  | govInitGenesis : T.GovGenesis → Call T
  | clpInitGenesis : T.CLPGenesis → Call T
  | slashingBeginBlocker : T.RequestBeginBlock → Call T
  | stakeEndBlocker : Call T
  | govEndBlocker : Call T

/-- The `abci.RequestInitChain`, with the field `initChainer` reads. -/
structure RequestInitChain (T : Types) where
  appStateBytes : T.Bytes

/-- The `abci.ResponseInitChain{}` that `initChainer` returns. -/
inductive ResponseInitChain where
  | empty : ResponseInitChain
deriving DecidableEq, Repr

/-- The `abci.ResponseBeginBlock`. -/
structure ResponseBeginBlock (T : Types) where
  tags : List T.KVPair

/-- The `abci.ResponseEndBlock`. -/
structure ResponseEndBlock (T : Types) where
  validatorUpdates : List T.Validator
  tags : List T.KVPair

/-- An execution of `initChainer`: it returned a response or panicked with an error;
the context it left; the calls it made, in order. -/
structure InitRun (T : Types) where
  outcome : Except T.Error ResponseInitChain
  ctx : T.Context
  trace : List (Call T)

/-! ## `initChainer` -/

/-- The loop `for _, gacc := range genesisState.Accounts` of `initChainer`: the context and
the trace after the remaining accounts have been loaded. -/
def loadAccounts {T : Types} (env : Env T) :
    List T.GenesisAccount → T.Context → List (Call T) → T.Context × List (Call T)
  | [], ctx, tr => (ctx, tr)
  | gacc :: rest, ctx, tr =>
    let acc := env.toAccount gacc
    let next := env.getNextAccountNumber ctx
    let acc := { acc with accountNumber := next.1 }
    let ctx := env.setAccount next.2 acc
    loadAccounts env rest ctx (tr ++ [Call.getNextAccountNumber, Call.setAccount acc])

/-- The function `initChainer`: a `panic(err)` is the outcome `Except.error err`. -/
def initChainer {T : Types} (env : Env T) (ctx : T.Context) (req : RequestInitChain T) :
    InitRun T :=
  let stateJSON := req.appStateBytes
  match env.unmarshalJSON stateJSON with
  | Except.error err => { outcome := Except.error err, ctx := ctx, trace := [] }
  | Except.ok genesisState =>
    -- load the accounts
    let loaded := loadAccounts env genesisState.accounts ctx []
    -- load the initial stake information
    let staked := env.stakeInitGenesis loaded.1 genesisState.stakeData
    let tr := loaded.2 ++ [Call.stakeInitGenesis genesisState.stakeData]
    match staked.2 with
    | some err => { outcome := Except.error err, ctx := staked.1, trace := tr }
    | none =>
      let ctx := env.govInitGenesis staked.1 env.govDefaultGenesisState
      let tr := tr ++ [Call.govInitGenesis env.govDefaultGenesisState]
      -- CLP initial load
      let pooled := env.clpInitGenesis ctx genesisState.clpGenesis
      let tr := tr ++ [Call.clpInitGenesis genesisState.clpGenesis]
      match pooled.2 with
      | some err => { outcome := Except.error err, ctx := pooled.1, trace := tr }
      | none => { outcome := Except.ok ResponseInitChain.empty, ctx := pooled.1, trace := tr }

/-! ## Block hooks -/

/-- The function `BeginBlocker`: the response, the context left and the calls made. -/
def BeginBlocker {T : Types} (env : Env T) (ctx : T.Context) (req : T.RequestBeginBlock) :
    ResponseBeginBlock T × T.Context × List (Call T) :=
  let r := env.slashingBeginBlocker ctx req
  let tags := r.1
  ({ tags := Tags.ToKVPairs tags }, r.2, [Call.slashingBeginBlocker req])

/-- The function `EndBlocker`: the response, the context left and the calls made. -/
def EndBlocker {T : Types} (env : Env T) (ctx : T.Context) (_req : T.RequestEndBlock) :
    ResponseEndBlock T × T.Context × List (Call T) :=
  let s := env.stakeEndBlocker ctx
  let validatorUpdates := s.1
  let g := env.govEndBlocker s.2
  let tags := g.1.1
  ({ validatorUpdates := validatorUpdates, tags := tags }, g.2,
    [Call.stakeEndBlocker, Call.govEndBlocker])

/-! ## State export -/

/-- Modelled from the spec: the Account Manager's ordered iteration
(`accountMapper.IterateAccounts`, declared in the imported SDK): the stored accounts are
handed to the callback one by one, in order, until the callback answers `stop`. -/
def IterateAccounts {α : Type} (process : Account → α → α × Bool) : List Account → α → α
  | [], st => st
  | acc :: rest, st =>
    match process acc st with
    | (st, true) => st
    | (st, false) => IterateAccounts process rest st

/-- The closure `appendAccount` of `ExportAppStateAndValidators`, acting on the captured
slice `accounts`. -/
def appendAccount {T : Types} (env : Env T) (acc : Account)
    (accounts : List T.GenesisAccount) : List T.GenesisAccount × Bool :=
  let account := env.newGenesisAccountI acc
  (accounts ++ [account], false)

/-- The document `genState` that `ExportAppStateAndValidators` builds. -/
def exportGenState {T : Types} (env : Env T) (ctx : T.Context) : GenesisState T :=
  let accounts := IterateAccounts (appendAccount env) (env.storedAccounts ctx) []
  { accounts := accounts
    stakeData := env.stakeWriteGenesis ctx
    clpGenesis := env.clpWriteGenesis ctx }

/-- The function `ExportAppStateAndValidators`, on the context `app.NewContext` gives. -/
def ExportAppStateAndValidators {T : Types} (env : Env T) (ctx : T.Context) :
    Except T.Error (T.Bytes × List T.GenesisValidator) :=
  let genState := exportGenState env ctx
  match env.marshalJSONIndent genState with
  | Except.error err => Except.error err
  | Except.ok appState =>
    let validators := env.stakeWriteValidators ctx
    Except.ok (appState, validators)

/-! ## Wiring of `NewThorchainApp` -/

/-- The `sdk.KVStoreKey`: the handle of one store partition, identified by its name. -/
structure KVStoreKey where
  name : String
deriving DecidableEq, Repr

/-- The key made by `sdk.NewKVStoreKey("main")`. -/
def keyMain : KVStoreKey := { name := "main" }
/-- The key made by `sdk.NewKVStoreKey("acc")`. -/
def keyAccount : KVStoreKey := { name := "acc" }
/-- The key made by `sdk.NewKVStoreKey("ibc")`. -/
def keyIBC : KVStoreKey := { name := "ibc" }
/-- The key made by `sdk.NewKVStoreKey("stake")`. -/
def keyStake : KVStoreKey := { name := "stake" }
/-- The key made by `sdk.NewKVStoreKey("slashing")`. -/
def keySlashing : KVStoreKey := { name := "slashing" }
/-- The key made by `sdk.NewKVStoreKey("gov")`. -/
def keyGov : KVStoreKey := { name := "gov" }
/-- The key made by `sdk.NewKVStoreKey("fee")`. -/
def keyFeeCollection : KVStoreKey := { name := "fee" }
/-- The key made by `sdk.NewKVStoreKey("clp")`. -/
def keyCLP : KVStoreKey := { name := "clp" }

/-- The eight module state managers held by `ThorchainApp`, by field name. -/
inductive Keeper where
  | accountMapper
  | feeCollectionKeeper
  | coinKeeper
  | ibcMapper
  | stakeKeeper
  | slashingKeeper
  | govKeeper
  | clpKeeper
deriving DecidableEq, Repr

/-- The managers of `ThorchainApp`, in the order of its fields. -/
def Keeper.all : List Keeper :=
  [Keeper.accountMapper, Keeper.feeCollectionKeeper, Keeper.coinKeeper, Keeper.ibcMapper,
   Keeper.stakeKeeper, Keeper.slashingKeeper, Keeper.govKeeper, Keeper.clpKeeper]

/-- The store keys that `NewThorchainApp` passes to the constructor of each manager. -/
def Keeper.storeKeys : Keeper → List KVStoreKey
  | Keeper.accountMapper => [keyAccount]        -- auth.NewAccountMapper(cdc, keyAccount, ..)
  | Keeper.coinKeeper => []                     -- bank.NewKeeper(accountMapper)
  | Keeper.ibcMapper => [keyIBC]                -- ibc.NewMapper(cdc, keyIBC, ..)
  | Keeper.stakeKeeper => [keyStake]            -- stake.NewKeeper(cdc, keyStake, coinKeeper, ..)
  | Keeper.slashingKeeper => [keySlashing]      -- slashing.NewKeeper(cdc, keySlashing, stakeKeeper, ..)
  | Keeper.govKeeper => [keyGov]                -- gov.NewKeeper(cdc, keyGov, coinKeeper, stakeKeeper, ..)
  | Keeper.feeCollectionKeeper => [keyFeeCollection] -- auth.NewFeeCollectionKeeper(cdc, keyFeeCollection)
  | Keeper.clpKeeper => [keyCLP]                -- clp.NewKeeper(keyCLP, coinKeeper, ..)

/-- The other managers that `NewThorchainApp` passes to the constructor of each manager. -/
def Keeper.dependsOn : Keeper → List Keeper
  | Keeper.accountMapper => []
  | Keeper.coinKeeper => [Keeper.accountMapper]
  | Keeper.ibcMapper => []
  | Keeper.stakeKeeper => [Keeper.coinKeeper]
  | Keeper.slashingKeeper => [Keeper.stakeKeeper]
  | Keeper.govKeeper => [Keeper.coinKeeper, Keeper.stakeKeeper]
  | Keeper.feeCollectionKeeper => []
  | Keeper.clpKeeper => [Keeper.coinKeeper]

/-- The store keys a manager can reach: its own and, up to the given depth, those of the
managers it was constructed with. -/
def Keeper.reachableKeys : Nat → Keeper → List KVStoreKey
  | 0, k => k.storeKeys
  | n + 1, k => k.storeKeys ++ k.dependsOn.flatMap (Keeper.reachableKeys n)

/-- The argument list of `app.MountStoresIAVL(..)` in `NewThorchainApp`. -/
def mountedStores : List KVStoreKey :=
  [keyMain, keyAccount, keyIBC, keyStake, keySlashing, keyGov, keyFeeCollection, keyCLP]

/-- The managers that were constructed with the store key `key`. -/
def owners (key : KVStoreKey) : List Keeper :=
  Keeper.all.filter (fun k => decide (key ∈ k.storeKeys))

/-- A message handler: the package whose `NewHandler` made it and the managers bound to it. -/
structure Handler where
  package : String
  keepers : List Keeper
deriving DecidableEq, Repr

/-- The router of the base application: the registered routes, in registration order. -/
structure Router where
  routes : List (String × Handler)
deriving DecidableEq, Repr

/-- The router of a new base application. -/
def Router.new : Router := { routes := [] }

/-- Modelled from the spec: `Router.AddRoute`, declared in the imported base application:
it registers one handler per message kind, and registering a kind that already has a
handler is a startup error. -/
def Router.AddRoute (rtr : Router) (r : String) (h : Handler) : Except String Router :=
  if rtr.routes.any (fun route => route.1 == r) then
    Except.error ("route " ++ r ++ " has already been registered")
  else
    Except.ok { routes := rtr.routes ++ [(r, h)] }

/-- Modelled from the spec: `Router.Route`, declared in the imported base application: a
pure lookup of the handler registered for a message kind. -/
def Router.Route (rtr : Router) (path : String) : Option Handler :=
  (rtr.routes.find? (fun route => route.1 == path)).map Prod.snd

/-- The `AddRoute` chain of `NewThorchainApp`. -/
def registerRoutes (rtr : Router) : Except String Router := do
  let rtr ← rtr.AddRoute "bank" { package := "bank", keepers := [Keeper.coinKeeper] }
  let rtr ← rtr.AddRoute "ibc"
    { package := "ibc", keepers := [Keeper.ibcMapper, Keeper.coinKeeper] }
  let rtr ← rtr.AddRoute "stake" { package := "stake", keepers := [Keeper.stakeKeeper] }
  let rtr ← rtr.AddRoute "slashing"
    { package := "slashing", keepers := [Keeper.slashingKeeper] }
  let rtr ← rtr.AddRoute "gov" { package := "gov", keepers := [Keeper.govKeeper] }
  rtr.AddRoute "clp" { package := "clp", keepers := [Keeper.clpKeeper] }

/-- The part of `ThorchainApp` that `NewThorchainApp` fixes at startup. -/
structure ThorchainApp where
  router : Router
  mounted : List KVStoreKey
deriving DecidableEq, Repr

/-- The function `NewThorchainApp`: the routes are registered, the stores are mounted and
the latest version is loaded (`loadLatestVersion` stands for the base application's
`LoadLatestVersion`); a failure of a step ends the start-up with its error. -/
def NewThorchainApp (loadLatestVersion : List KVStoreKey → KVStoreKey → Option String) :
    Except String ThorchainApp := do
  let rtr ← registerRoutes Router.new
  match loadLatestVersion mountedStores keyMain with
  | some err => Except.error err
  | none => Except.ok { router := rtr, mounted := mountedStores }

/-! ## Reference collaborators

A small executable instance of the collaborators, on which the statements below are
evaluated. -/

/-- The store of the reference instance. -/
structure SimStore where
  accounts : List Account
  nextAccountNumber : Int
  stake : Nat
  gov : Nat
  clp : Nat
  slashing : Nat
deriving DecidableEq, Repr

/-- The types of the reference instance.  A serialised document is the triple of its
parts, or `none` for bytes that do not decode. -/
@[reducible] def simTypes : Types where
  Context := SimStore
  Bytes := Option (List Account × Nat × Nat)
  Error := String
  GenesisAccount := Account
  StakeGenesis := Nat
  GovGenesis := Nat
  CLPGenesis := Nat
  RequestBeginBlock := Nat
  RequestEndBlock := Unit
  KVPair := String × Nat
  Validator := Nat × Int
  GenesisValidator := Nat
  GovEndResult := List String

/-- The account store of the reference instance: an account replaces the stored account
of the same address, a new address is added at the end. -/
def simSetAccount (ctx : SimStore) (acc : Account) : SimStore :=
  if ctx.accounts.any (fun a => a.address == acc.address) then
    { ctx with
      accounts := ctx.accounts.map (fun a => if a.address == acc.address then acc else a) }
  else
    { ctx with accounts := ctx.accounts ++ [acc] }

/-- The reference instance of the collaborators: every module keeps one number; the
liquidity-pool module refuses the genesis value `0`. -/
def simEnv : Env simTypes where
  unmarshalJSON := fun bz =>
    match bz with
    | none => Except.error "malformed genesis document"
    | some doc => Except.ok { accounts := doc.1, stakeData := doc.2.1, clpGenesis := doc.2.2 }
  marshalJSONIndent := fun g => Except.ok (some (g.accounts, g.stakeData, g.clpGenesis))
  toAccount := fun gacc => gacc
  newGenesisAccountI := fun acc => acc
  getNextAccountNumber := fun ctx =>
    (ctx.nextAccountNumber, { ctx with nextAccountNumber := ctx.nextAccountNumber + 1 })
  setAccount := simSetAccount
  storedAccounts := fun ctx => ctx.accounts
  stakeInitGenesis := fun ctx data => ({ ctx with stake := data }, none)
  stakeWriteGenesis := fun ctx => ctx.stake
  stakeWriteValidators := fun ctx => [ctx.stake]
  stakeEndBlocker := fun ctx => ([(ctx.stake, 1)], { ctx with stake := ctx.stake + 1 })
  govDefaultGenesisState := 0
  govInitGenesis := fun ctx data => { ctx with gov := data }
  govEndBlocker := fun ctx =>
    (([("action", 1), ("proposals", ctx.gov)], []), { ctx with gov := ctx.gov + 1 })
  clpInitGenesis := fun ctx data =>
    if data = 0 then (ctx, some "empty liquidity pool genesis")
    else ({ ctx with clp := data }, none)
  clpWriteGenesis := fun ctx => ctx.clp
  slashingBeginBlocker := fun ctx req =>
    ([("height", req), ("slashed", ctx.slashing)], { ctx with slashing := ctx.slashing + req })

/-- An empty store, with the account counter at zero. -/
def simFresh : SimStore :=
  { accounts := [], nextAccountNumber := 0, stake := 0, gov := 0, clp := 0, slashing := 0 }

/-- A store holding two accounts and module state. -/
def simState : SimStore :=
  { accounts :=
      [ { address := "alice", coins := [("rune", 1000)], sequence := 3, accountNumber := 4 },
        { address := "bob", coins := [("rune", 100)], sequence := 1, accountNumber := 9 } ]
    nextAccountNumber := 10, stake := 5, gov := 7, clp := 2, slashing := 1 }

/-- A genesis document with two accounts, both carrying the account number 42. -/
def simGenesis : GenesisState simTypes :=
  { accounts :=
      [ { address := "alice", coins := [("rune", 1000)], sequence := 0, accountNumber := 42 },
        { address := "bob", coins := [("rune", 100)], sequence := 0, accountNumber := 42 } ]
    stakeData := 5
    clpGenesis := 2 }

/-- The document `simGenesis`, as the reference codec serialises it. -/
def simGenesisBytes : Option (List Account × Nat × Nat) :=
  some (simGenesis.accounts, simGenesis.stakeData, simGenesis.clpGenesis)

/-! ## Views of an execution, used to state the properties -/

/-- The accounts that the loop of `initChainer` passes to `SetAccount`, in order. -/
def assignedAccounts {T : Types} (env : Env T) : List T.GenesisAccount → T.Context → List Account
  | [], _ => []
  | gacc :: rest, ctx =>
    let next := env.getNextAccountNumber ctx
    let acc := { env.toAccount gacc with accountNumber := next.1 }
    acc :: assignedAccounts env rest (env.setAccount next.2 acc)

/-- The calls that store the accounts `stored`: for each one, the counter is read and the
account is set. -/
def storeCalls {T : Types} (stored : List Account) : List (Call T) :=
  stored.flatMap (fun acc => [Call.getNextAccountNumber, Call.setAccount acc])

/-- The accounts passed to `SetAccount` in a trace, in call order. -/
def setAccountCalls {T : Types} : List (Call T) → List Account
  | [] => []
  | Call.setAccount acc :: tr => acc :: setAccountCalls tr
  | _ :: tr => setAccountCalls tr

/-- The arguments of the `gov.InitGenesis` calls of a trace, in call order. -/
def govInitCalls {T : Types} : List (Call T) → List T.GovGenesis
  | [] => []
  | Call.govInitGenesis data :: tr => data :: govInitCalls tr
  | _ :: tr => govInitCalls tr

/-- The accounts of a document numbered consecutively from `c`. -/
def numberedFrom {T : Types} (env : Env T) : Int → List T.GenesisAccount → List Account
  | _, [] => []
  | c, gacc :: rest => { env.toAccount gacc with accountNumber := c } :: numberedFrom env (c + 1) rest

/-- The context after the account loop of `initChainer` on the document `g`. -/
def afterAccounts {T : Types} (env : Env T) (ctx : T.Context) (g : GenesisState T) : T.Context :=
  (loadAccounts env g.accounts ctx []).1

/-- The result of `stake.InitGenesis` in `initChainer` on the document `g`. -/
def afterStake {T : Types} (env : Env T) (ctx : T.Context) (g : GenesisState T) :
    T.Context × Option T.Error :=
  env.stakeInitGenesis (afterAccounts env ctx g) g.stakeData

/-- The context after `gov.InitGenesis` in `initChainer` on the document `g`. -/
def afterGov {T : Types} (env : Env T) (ctx : T.Context) (g : GenesisState T) : T.Context :=
  env.govInitGenesis (afterStake env ctx g).1 env.govDefaultGenesisState

/-- The result of `clp.InitGenesis` in `initChainer` on the document `g`. -/
def afterCLP {T : Types} (env : Env T) (ctx : T.Context) (g : GenesisState T) :
    T.Context × Option T.Error :=
  env.clpInitGenesis (afterGov env ctx g) g.clpGenesis

/-- The route table of `NewThorchainApp`: the arguments of its `AddRoute` calls, in order. -/
def routeTable : List (String × Handler) :=
  [("bank", { package := "bank", keepers := [Keeper.coinKeeper] }),
   ("ibc", { package := "ibc", keepers := [Keeper.ibcMapper, Keeper.coinKeeper] }),
   ("stake", { package := "stake", keepers := [Keeper.stakeKeeper] }),
   ("slashing", { package := "slashing", keepers := [Keeper.slashingKeeper] }),
   ("gov", { package := "gov", keepers := [Keeper.govKeeper] }),
   ("clp", { package := "clp", keepers := [Keeper.clpKeeper] })]

/-- Whether the router holds a handler for the message kind `r`. -/
def Router.registered (rtr : Router) (r : String) : Bool :=
  rtr.routes.any (fun route => route.1 == r)

/-- The part of an account that the export and import of the state is about: the address,
the balances and the sequence number. -/
def Account.holdings (acc : Account) : String × List (String × Int) × Int :=
  (acc.address, acc.coins, acc.sequence)

/-- The round trip: the state of `ctx` is exported and the exported document is given to
`initChainer` on the store `fresh`; `none` when the export fails. -/
def roundTrip {T : Types} (env : Env T) (ctx fresh : T.Context) : Option (InitRun T) :=
  match ExportAppStateAndValidators env ctx with
  | Except.error _ => none
  | Except.ok (appState, _) => some (initChainer env fresh { appStateBytes := appState })

/-- What the round trip of the state of `s` asks of the collaborators: the codec decodes
what it encoded; the conversion of an account to a genesis account and back keeps its
address, balances and sequence number; the account mapper adds an account with a new
address to the stored ones, and reading the counter stores nothing; the stake and the
pool module accept their own export of `s` and then export it again, and the module
initialisers leave the stored accounts and the stake export alone. -/
structure RoundTripLaws {T : Types} (env : Env T) (s : T.Context) : Prop where
  decode_encode : ∀ g bz, env.marshalJSONIndent g = Except.ok bz →
    env.unmarshalJSON bz = Except.ok g
  convert : ∀ acc, (env.toAccount (env.newGenesisAccountI acc)).holdings = acc.holdings
  next_stored : ∀ c, env.storedAccounts (env.getNextAccountNumber c).2 = env.storedAccounts c
  set_stored : ∀ c acc, (∀ a ∈ env.storedAccounts c, a.address ≠ acc.address) →
    (env.storedAccounts (env.setAccount c acc)).Perm (acc :: env.storedAccounts c)
  stake_init : ∀ c,
    (env.stakeInitGenesis c (env.stakeWriteGenesis s)).2 = none
      ∧ env.stakeWriteGenesis (env.stakeInitGenesis c (env.stakeWriteGenesis s)).1
          = env.stakeWriteGenesis s
      ∧ env.storedAccounts (env.stakeInitGenesis c (env.stakeWriteGenesis s)).1
          = env.storedAccounts c
  gov_init : ∀ c,
    env.storedAccounts (env.govInitGenesis c env.govDefaultGenesisState) = env.storedAccounts c
      ∧ env.stakeWriteGenesis (env.govInitGenesis c env.govDefaultGenesisState)
          = env.stakeWriteGenesis c
  clp_init : ∀ c,
    (env.clpInitGenesis c (env.clpWriteGenesis s)).2 = none
      ∧ env.clpWriteGenesis (env.clpInitGenesis c (env.clpWriteGenesis s)).1
          = env.clpWriteGenesis s
      ∧ env.storedAccounts (env.clpInitGenesis c (env.clpWriteGenesis s)).1
          = env.storedAccounts c
      ∧ env.stakeWriteGenesis (env.clpInitGenesis c (env.clpWriteGenesis s)).1
          = env.stakeWriteGenesis c

/-! ## The account loop -/

theorem loadAccounts_trace {T : Types} (env : Env T) (l : List T.GenesisAccount)
    (ctx : T.Context) (tr : List (Call T)) :
    (loadAccounts env l ctx tr).2 = tr ++ storeCalls (assignedAccounts env l ctx) := by
  induction l generalizing ctx tr with
  | nil => simp [loadAccounts, assignedAccounts, storeCalls]
  | cons gacc rest ih =>
    simp only [loadAccounts, assignedAccounts]
    rw [ih]
    simp [storeCalls]

theorem loadAccounts_ctx {T : Types} (env : Env T) (l : List T.GenesisAccount)
    (ctx : T.Context) (tr : List (Call T)) :
    (loadAccounts env l ctx tr).1 = (loadAccounts env l ctx []).1 := by
  induction l generalizing ctx tr with
  | nil => simp [loadAccounts]
  | cons gacc rest ih =>
    simp only [loadAccounts]
    rw [ih, ih _ ([] ++ _)]

theorem assignedAccounts_forall2 {T : Types} (env : Env T) (l : List T.GenesisAccount)
    (ctx : T.Context) :
    List.Forall₂ (fun gacc acc => ∃ n : Int, acc = { env.toAccount gacc with accountNumber := n })
      l (assignedAccounts env l ctx) := by
  induction l generalizing ctx with
  | nil => exact List.Forall₂.nil
  | cons gacc rest ih =>
    simp only [assignedAccounts]
    exact List.Forall₂.cons ⟨_, rfl⟩ (ih _)

theorem setAccountCalls_append {T : Types} (tr₁ tr₂ : List (Call T)) :
    setAccountCalls (tr₁ ++ tr₂) = setAccountCalls tr₁ ++ setAccountCalls tr₂ := by
  induction tr₁ with
  | nil => rfl
  | cons c tr ih => cases c <;> simp [setAccountCalls, ih]

theorem setAccountCalls_storeCalls {T : Types} (stored : List Account) :
    setAccountCalls (storeCalls stored : List (Call T)) = stored := by
  induction stored with
  | nil => rfl
  | cons acc rest ih =>
    have h : (storeCalls (acc :: rest) : List (Call T))
        = [Call.getNextAccountNumber, Call.setAccount acc] ++ storeCalls rest := by
      simp [storeCalls]
    rw [h, setAccountCalls_append, ih]
    rfl

theorem govInitCalls_append {T : Types} (tr₁ tr₂ : List (Call T)) :
    govInitCalls (tr₁ ++ tr₂) = govInitCalls tr₁ ++ govInitCalls tr₂ := by
  induction tr₁ with
  | nil => rfl
  | cons c tr ih => cases c <;> simp [govInitCalls, ih]

theorem govInitCalls_storeCalls {T : Types} (stored : List Account) :
    govInitCalls (storeCalls stored : List (Call T)) = [] := by
  induction stored with
  | nil => rfl
  | cons acc rest ih =>
    have h : (storeCalls (acc :: rest) : List (Call T))
        = [Call.getNextAccountNumber, Call.setAccount acc] ++ storeCalls rest := by
      simp [storeCalls]
    rw [h, govInitCalls_append, ih]
    rfl

/-- The trace of `initChainer` once the document has been decoded, by the step at which
it ends. -/
theorem initChainer_of_decoded {T : Types} (env : Env T) (ctx : T.Context)
    (req : RequestInitChain T) (g : GenesisState T)
    (hdec : env.unmarshalJSON req.appStateBytes = Except.ok g) :
    initChainer env ctx req =
      match (afterStake env ctx g).2 with
      | some err =>
        { outcome := Except.error err, ctx := (afterStake env ctx g).1,
          trace := storeCalls (assignedAccounts env g.accounts ctx)
            ++ [Call.stakeInitGenesis g.stakeData] }
      | none =>
        match (afterCLP env ctx g).2 with
        | some err =>
          { outcome := Except.error err, ctx := (afterCLP env ctx g).1,
            trace := storeCalls (assignedAccounts env g.accounts ctx)
              ++ [Call.stakeInitGenesis g.stakeData,
                  Call.govInitGenesis env.govDefaultGenesisState,
                  Call.clpInitGenesis g.clpGenesis] }
        | none =>
          { outcome := Except.ok ResponseInitChain.empty, ctx := (afterCLP env ctx g).1,
            trace := storeCalls (assignedAccounts env g.accounts ctx)
              ++ [Call.stakeInitGenesis g.stakeData,
                  Call.govInitGenesis env.govDefaultGenesisState,
                  Call.clpInitGenesis g.clpGenesis] } := by
  unfold initChainer
  simp only [hdec]
  have htr := loadAccounts_trace env g.accounts ctx []
  simp only [List.nil_append] at htr
  simp only [afterStake, afterCLP, afterGov, afterAccounts, htr]
  cases h1 : (env.stakeInitGenesis (loadAccounts env g.accounts ctx []).1 g.stakeData).2 with
  | some err => simp
  | none =>
    simp only
    cases h2 : (env.clpInitGenesis (env.govInitGenesis
        (env.stakeInitGenesis (loadAccounts env g.accounts ctx []).1 g.stakeData).1
        env.govDefaultGenesisState) g.clpGenesis).2 with
    | some err => simp
    | none => simp

theorem initChainer_of_undecoded {T : Types} (env : Env T) (ctx : T.Context)
    (req : RequestInitChain T) (err : T.Error)
    (hdec : env.unmarshalJSON req.appStateBytes = Except.error err) :
    initChainer env ctx req = { outcome := Except.error err, ctx := ctx, trace := [] } := by
  unfold initChainer
  simp only [hdec]

theorem numberedFrom_length {T : Types} (env : Env T) (c : Int) (l : List T.GenesisAccount) :
    (numberedFrom env c l).length = l.length := by
  induction l generalizing c with
  | nil => rfl
  | cons gacc rest ih => simp [numberedFrom, ih]

theorem numberedFrom_getElem_opt {T : Types} (env : Env T) (c : Int) (l : List T.GenesisAccount)
    (i : Nat) :
    (numberedFrom env c l)[i]? =
      (l[i]?).map (fun gacc => { env.toAccount gacc with accountNumber := c + i }) := by
  induction l generalizing c i with
  | nil => simp [numberedFrom]
  | cons gacc rest ih =>
    cases i with
    | zero => simp [numberedFrom]
    | succ j =>
      simp only [numberedFrom, List.getElem?_cons_succ, ih]
      have h : c + 1 + (j : Int) = c + ((j + 1 : Nat) : Int) := by push_cast; ring
      rw [h]

theorem numberedFrom_bounds {T : Types} (env : Env T) (c : Int) (l : List T.GenesisAccount) :
    ∀ acc ∈ numberedFrom env c l, c ≤ acc.accountNumber ∧ acc.accountNumber < c + l.length := by
  induction l generalizing c with
  | nil => simp [numberedFrom]
  | cons gacc rest ih =>
    intro acc hacc
    simp only [numberedFrom, List.mem_cons] at hacc
    rcases hacc with h | h
    · subst h
      simp only [List.length_cons]
      push_cast
      constructor <;> omega
    · have := ih (c + 1) acc h
      simp only [List.length_cons]
      push_cast
      constructor <;> omega

theorem numberedFrom_pairwise {T : Types} (env : Env T) (c : Int) (l : List T.GenesisAccount) :
    List.Pairwise (fun m n : Int => m < n) ((numberedFrom env c l).map Account.accountNumber) := by
  induction l generalizing c with
  | nil => simp [numberedFrom]
  | cons gacc rest ih =>
    simp only [numberedFrom, List.map_cons, List.pairwise_cons]
    refine ⟨?_, ih (c + 1)⟩
    intro n hn
    rcases List.mem_map.mp hn with ⟨acc, hacc, rfl⟩
    have := (numberedFrom_bounds env (c + 1) rest acc hacc).1
    omega

/-- With an account mapper whose `GetNextAccountNumber` returns the counter and advances it
by one, and whose `SetAccount` leaves the counter alone, the loop numbers the accounts
consecutively from the counter and leaves the counter behind the last number. -/
theorem assignedAccounts_numbered {T : Types} (env : Env T) (counter : T.Context → Int)
    (hnext : ∀ s, (env.getNextAccountNumber s).1 = counter s
      ∧ counter (env.getNextAccountNumber s).2 = counter s + 1)
    (hset : ∀ s acc, counter (env.setAccount s acc) = counter s)
    (l : List T.GenesisAccount) (ctx : T.Context) :
    assignedAccounts env l ctx = numberedFrom env (counter ctx) l
      ∧ counter (loadAccounts env l ctx []).1 = counter ctx + l.length := by
  induction l generalizing ctx with
  | nil => simp [assignedAccounts, numberedFrom, loadAccounts]
  | cons gacc rest ih =>
    have h1 := (hnext ctx).1
    have h2 := (hnext ctx).2
    have ih := ih (env.setAccount (env.getNextAccountNumber ctx).2
      { env.toAccount gacc with accountNumber := (env.getNextAccountNumber ctx).1 })
    rw [hset, h2] at ih
    constructor
    · simp only [assignedAccounts, numberedFrom]
      rw [ih.1, h1]
    · simp only [loadAccounts]
      rw [loadAccounts_ctx, ih.2]
      simp only [List.length_cons]
      push_cast
      ring

/-- The context the account loop leaves is the context reached by applying, for each
account it logs as stored, `GetNextAccountNumber` and then `SetAccount` of that account. -/
theorem loadAccounts_ctx_assigned {T : Types} (env : Env T) (l : List T.GenesisAccount)
    (ctx : T.Context) :
    (loadAccounts env l ctx []).1 =
      (assignedAccounts env l ctx).foldl
        (fun c acc => env.setAccount (env.getNextAccountNumber c).2 acc) ctx := by
  induction l generalizing ctx with
  | nil => rfl
  | cons gacc rest ih =>
    simp only [loadAccounts, assignedAccounts, List.foldl_cons]
    rw [loadAccounts_ctx, ih]

theorem loadAccounts_ctx_foldl {T : Types} (env : Env T) (l : List T.GenesisAccount)
    (ctx : T.Context) :
    (loadAccounts env l ctx []).1 =
      l.foldl
        (fun c gacc => env.setAccount (env.getNextAccountNumber c).2
          { env.toAccount gacc with accountNumber := (env.getNextAccountNumber c).1 }) ctx := by
  induction l generalizing ctx with
  | nil => rfl
  | cons gacc rest ih =>
    simp only [loadAccounts, List.foldl_cons]
    rw [loadAccounts_ctx, ih]

theorem initChainer_ctx_of_decoded {T : Types} (env : Env T) (ctx : T.Context)
    (req : RequestInitChain T) (g : GenesisState T)
    (hdec : env.unmarshalJSON req.appStateBytes = Except.ok g) :
    (initChainer env ctx req).ctx =
      match (afterStake env ctx g).2 with
      | some _ => (afterStake env ctx g).1
      | none => (afterCLP env ctx g).1 := by
  rw [initChainer_of_decoded env ctx req g hdec]
  cases h1 : (afterStake env ctx g).2 with
  | some err => rfl
  | none =>
    simp only
    cases h2 : (afterCLP env ctx g).2 with
    | some err => rfl
    | none => rfl

theorem initChainer_ctx_of_returned {T : Types} (env : Env T) (ctx : T.Context)
    (req : RequestInitChain T) (resp : ResponseInitChain)
    (h : (initChainer env ctx req).outcome = Except.ok resp) :
    ∃ g : GenesisState T, env.unmarshalJSON req.appStateBytes = Except.ok g
      ∧ (afterStake env ctx g).2 = none ∧ (afterCLP env ctx g).2 = none
      ∧ (initChainer env ctx req).ctx = (afterCLP env ctx g).1 := by
  cases hdec : env.unmarshalJSON req.appStateBytes with
  | error err =>
    rw [initChainer_of_undecoded env ctx req err hdec] at h
    cases h
  | ok g =>
    have hctx := initChainer_ctx_of_decoded env ctx req g hdec
    rw [initChainer_of_decoded env ctx req g hdec] at h
    cases h1 : (afterStake env ctx g).2 with
    | some err => rw [h1] at h; cases h
    | none =>
      rw [h1] at h hctx
      cases h2 : (afterCLP env ctx g).2 with
      | some err => rw [h2] at h; cases h
      | none => exact ⟨g, rfl, h1, h2, hctx⟩

/-! ## Genesis initialisation: order, numbering, failure -/

/-- C1: on every genesis input on which `initChainer` succeeds, the calls on the store are,
in this order and each exactly once: the storing of every account of the document, in
document order (each preceded by the reading of its account number), then
`stake.InitGenesis`, then `gov.InitGenesis`, then `clp.InitGenesis`; and the context
`initChainer` leaves is the one these steps produce in this order: the accounts logged as
stored are set one after the other on the context given, `stake.InitGenesis` runs on the
context the last account left, `gov.InitGenesis` on the one stake left and
`clp.InitGenesis` on the one governance left, stake and pool reporting no error. -/
theorem initChainer_genesis_order {T : Types} (env : Env T) (ctx : T.Context)
    (req : RequestInitChain T) (resp : ResponseInitChain)
    (h : (initChainer env ctx req).outcome = Except.ok resp) :
    ∃ (g : GenesisState T) (stored : List Account),
      env.unmarshalJSON req.appStateBytes = Except.ok g
      ∧ List.Forall₂
          (fun gacc acc => ∃ n : Int, acc = { env.toAccount gacc with accountNumber := n })
          g.accounts stored
      ∧ (initChainer env ctx req).trace =
          storeCalls stored ++
            [Call.stakeInitGenesis g.stakeData,
             Call.govInitGenesis env.govDefaultGenesisState,
             Call.clpInitGenesis g.clpGenesis]
      ∧ (initChainer env ctx req).ctx =
          (env.clpInitGenesis
            (env.govInitGenesis
              (env.stakeInitGenesis
                (stored.foldl (fun c acc => env.setAccount (env.getNextAccountNumber c).2 acc)
                  ctx)
                g.stakeData).1
              env.govDefaultGenesisState)
            g.clpGenesis).1
      ∧ (env.stakeInitGenesis
          (stored.foldl (fun c acc => env.setAccount (env.getNextAccountNumber c).2 acc) ctx)
          g.stakeData).2 = none
      ∧ (env.clpInitGenesis
          (env.govInitGenesis
            (env.stakeInitGenesis
              (stored.foldl (fun c acc => env.setAccount (env.getNextAccountNumber c).2 acc)
                ctx)
              g.stakeData).1
            env.govDefaultGenesisState)
          g.clpGenesis).2 = none
      ∧ stored.foldl (fun c acc => env.setAccount (env.getNextAccountNumber c).2 acc) ctx =
          g.accounts.foldl
            (fun c gacc => env.setAccount (env.getNextAccountNumber c).2
              { env.toAccount gacc with accountNumber := (env.getNextAccountNumber c).1 })
            ctx := by
  obtain ⟨g, hdec, h1, h2, hctx⟩ := initChainer_ctx_of_returned env ctx req resp h
  have hload := loadAccounts_ctx_assigned env g.accounts ctx
  have hfold := loadAccounts_ctx_foldl env g.accounts ctx
  have htrace : (initChainer env ctx req).trace =
      storeCalls (assignedAccounts env g.accounts ctx) ++
        [Call.stakeInitGenesis g.stakeData,
         Call.govInitGenesis env.govDefaultGenesisState,
         Call.clpInitGenesis g.clpGenesis] := by
    rw [initChainer_of_decoded env ctx req g hdec, h1, h2]
  simp only [afterCLP, afterGov, afterStake, afterAccounts, hload] at hctx h1 h2
  exact ⟨g, assignedAccounts env g.accounts ctx, hdec, assignedAccounts_forall2 env _ ctx,
    htrace, hctx, h1, h2, hload.symm.trans hfold⟩

/-- C1, on the reference instance: the two accounts, then stake, governance, pool, and
the store they leave. -/
theorem initChainer_genesis_order_witness :
    (initChainer simEnv simFresh { appStateBytes := simGenesisBytes }).outcome
        = Except.ok ResponseInitChain.empty
      ∧ (initChainer simEnv simFresh { appStateBytes := simGenesisBytes }).ctx =
        { accounts :=
            [ { address := "alice", coins := [("rune", 1000)], sequence := 0,
                accountNumber := 0 },
              { address := "bob", coins := [("rune", 100)], sequence := 0,
                accountNumber := 1 } ]
          nextAccountNumber := 2, stake := 5, gov := 0, clp := 2, slashing := 0 }
      ∧ ∃ (g : GenesisState simTypes) (stored : List Account),
        simEnv.unmarshalJSON simGenesisBytes = Except.ok g
        ∧ List.Forall₂
            (fun gacc acc => ∃ n : Int, acc = { simEnv.toAccount gacc with accountNumber := n })
            g.accounts stored
        ∧ (initChainer simEnv simFresh { appStateBytes := simGenesisBytes }).trace =
            storeCalls stored ++
              [Call.stakeInitGenesis g.stakeData,
               Call.govInitGenesis simEnv.govDefaultGenesisState,
               Call.clpInitGenesis g.clpGenesis]
        ∧ (initChainer simEnv simFresh { appStateBytes := simGenesisBytes }).ctx =
            (simEnv.clpInitGenesis
              (simEnv.govInitGenesis
                (simEnv.stakeInitGenesis
                  (stored.foldl
                    (fun c acc => simEnv.setAccount (simEnv.getNextAccountNumber c).2 acc)
                    simFresh)
                  g.stakeData).1
                simEnv.govDefaultGenesisState)
              g.clpGenesis).1 :=
  ⟨rfl, rfl,
    (initChainer_genesis_order simEnv simFresh { appStateBytes := simGenesisBytes }
      ResponseInitChain.empty rfl).imp
      (fun _ hg => hg.imp (fun _ hs => ⟨hs.1, hs.2.1, hs.2.2.1, hs.2.2.2.1⟩))⟩

/-- C2: with an account mapper whose counter is read and advanced by one by
`GetNextAccountNumber` and left alone by `SetAccount`, `initChainer` stores the `i`-th
account of the document with the account number `c + i`, where `c` is the counter at the
start, whatever number the document carried; the assigned numbers are strictly increasing
in document order, pairwise distinct, at least `c` and below `c + n`, and the account loop
leaves the counter at `c + n`, the next number to be handed out.  The accounts so numbered
are the ones set on the store: the context the loop leaves is the context given with
`SetAccount` applied to them in document order, and it is this context that `initChainer`
hands to `stake.InitGenesis` and, through the module initialisers, leaves behind. -/
theorem initChainer_account_numbers {T : Types} (env : Env T) (counter : T.Context → Int)
    (hnext : ∀ s, (env.getNextAccountNumber s).1 = counter s
      ∧ counter (env.getNextAccountNumber s).2 = counter s + 1)
    (hset : ∀ s acc, counter (env.setAccount s acc) = counter s)
    (ctx : T.Context) (req : RequestInitChain T) (g : GenesisState T)
    (hdec : env.unmarshalJSON req.appStateBytes = Except.ok g) :
    (setAccountCalls (initChainer env ctx req).trace).length = g.accounts.length
      ∧ (∀ (i : Nat) (hi : i < g.accounts.length),
          (setAccountCalls (initChainer env ctx req).trace)[i]? =
            some { env.toAccount (g.accounts.get ⟨i, hi⟩) with
                   accountNumber := counter ctx + i })
      ∧ List.Pairwise (fun m n : Int => m < n)
          ((setAccountCalls (initChainer env ctx req).trace).map Account.accountNumber)
      ∧ ((setAccountCalls (initChainer env ctx req).trace).map Account.accountNumber).Nodup
      ∧ (∀ acc ∈ setAccountCalls (initChainer env ctx req).trace,
          counter ctx ≤ acc.accountNumber
            ∧ acc.accountNumber < counter ctx + g.accounts.length)
      ∧ counter (afterAccounts env ctx g) = counter ctx + g.accounts.length
      ∧ (env.getNextAccountNumber (afterAccounts env ctx g)).1
          = counter ctx + g.accounts.length
      ∧ (loadAccounts env g.accounts ctx []).1 =
          (setAccountCalls (initChainer env ctx req).trace).foldl
            (fun c acc => env.setAccount (env.getNextAccountNumber c).2 acc) ctx
      ∧ counter ((setAccountCalls (initChainer env ctx req).trace).foldl
            (fun c acc => env.setAccount (env.getNextAccountNumber c).2 acc) ctx)
          = counter ctx + g.accounts.length
      ∧ (initChainer env ctx req).ctx =
          (match (env.stakeInitGenesis
              ((setAccountCalls (initChainer env ctx req).trace).foldl
                (fun c acc => env.setAccount (env.getNextAccountNumber c).2 acc) ctx)
              g.stakeData).2 with
          | some _ =>
            (env.stakeInitGenesis
              ((setAccountCalls (initChainer env ctx req).trace).foldl
                (fun c acc => env.setAccount (env.getNextAccountNumber c).2 acc) ctx)
              g.stakeData).1
          | none =>
            (env.clpInitGenesis
              (env.govInitGenesis
                (env.stakeInitGenesis
                  ((setAccountCalls (initChainer env ctx req).trace).foldl
                    (fun c acc => env.setAccount (env.getNextAccountNumber c).2 acc) ctx)
                  g.stakeData).1
                env.govDefaultGenesisState)
              g.clpGenesis).1) := by
  have hnum := assignedAccounts_numbered env counter hnext hset g.accounts ctx
  have hstored : setAccountCalls (initChainer env ctx req).trace
      = numberedFrom env (counter ctx) g.accounts := by
    rw [initChainer_of_decoded env ctx req g hdec]
    cases h1 : (afterStake env ctx g).2 with
    | some err =>
      simp only
      rw [setAccountCalls_append, setAccountCalls_storeCalls, hnum.1]
      simp [setAccountCalls]
    | none =>
      simp only
      cases h2 : (afterCLP env ctx g).2 with
      | some err =>
        simp only
        rw [setAccountCalls_append, setAccountCalls_storeCalls, hnum.1]
        simp [setAccountCalls]
      | none =>
        simp only
        rw [setAccountCalls_append, setAccountCalls_storeCalls, hnum.1]
        simp [setAccountCalls]
  have hload : (loadAccounts env g.accounts ctx []).1 =
      (numberedFrom env (counter ctx) g.accounts).foldl
        (fun c acc => env.setAccount (env.getNextAccountNumber c).2 acc) ctx := by
    rw [loadAccounts_ctx_assigned, hnum.1]
  have hctx := initChainer_ctx_of_decoded env ctx req g hdec
  simp only [afterCLP, afterGov, afterStake, afterAccounts, hload] at hctx
  have hcount := hnum.2
  rw [hload] at hcount
  rw [hstored]
  refine ⟨numberedFrom_length env _ _, ?_, numberedFrom_pairwise env _ _, ?_,
    numberedFrom_bounds env _ _, hnum.2, ?_, hload, hcount, hctx⟩
  · intro i hi
    rw [numberedFrom_getElem_opt]
    simp [List.getElem?_eq_getElem hi]
  · exact (numberedFrom_pairwise env _ _).imp (fun h => ne_of_lt h)
  · rw [(hnext _).1]
    exact hnum.2

/-- C2, on the reference instance, from a store whose counter stands at 10: the two
accounts, which the document numbers 42, are stored with the numbers 10 and 11, and the
store `initChainer` leaves holds them under these numbers, with the counter at 12. -/
theorem initChainer_account_numbers_witness :
    simEnv.unmarshalJSON simGenesisBytes = Except.ok simGenesis
      ∧ simGenesis.accounts.map Account.accountNumber = [42, 42]
      ∧ simState.nextAccountNumber = 10
      ∧ (setAccountCalls
          (initChainer simEnv simState { appStateBytes := simGenesisBytes }).trace
        ).map Account.accountNumber = [10, 11]
      ∧ (initChainer simEnv simState { appStateBytes := simGenesisBytes }).ctx.accounts =
          [ { address := "alice", coins := [("rune", 1000)], sequence := 0,
              accountNumber := 10 },
            { address := "bob", coins := [("rune", 100)], sequence := 0,
              accountNumber := 11 } ]
      ∧ (initChainer simEnv simState
          { appStateBytes := simGenesisBytes }).ctx.nextAccountNumber = 12
      ∧ (afterAccounts simEnv simState simGenesis).nextAccountNumber
          = 10 + simGenesis.accounts.length
      ∧ (loadAccounts simEnv simGenesis.accounts simState []).1 =
          (setAccountCalls
            (initChainer simEnv simState { appStateBytes := simGenesisBytes }).trace).foldl
            (fun c acc => simEnv.setAccount (simEnv.getNextAccountNumber c).2 acc) simState :=
  ⟨rfl, rfl, rfl, rfl, rfl, rfl,
    (initChainer_account_numbers simEnv SimStore.nextAccountNumber
      (fun _ => ⟨rfl, rfl⟩)
      (fun s acc => by unfold simEnv simSetAccount; simp only; split <;> rfl)
      simState { appStateBytes := simGenesisBytes } simGenesis rfl).2.2.2.2.2.1,
    (initChainer_account_numbers simEnv SimStore.nextAccountNumber
      (fun _ => ⟨rfl, rfl⟩)
      (fun s acc => by unfold simEnv simSetAccount; simp only; split <;> rfl)
      simState { appStateBytes := simGenesisBytes } simGenesis rfl).2.2.2.2.2.2.2.1⟩

/-- C3: `initChainer` returns a response exactly when the decoding of the document,
`stake.InitGenesis` and `clp.InitGenesis` all succeed.  When the decoding fails it panics
with the context untouched and no call made; when `stake.InitGenesis` fails it panics
with that call as the last one (governance and the pool are not initialised); when
`clp.InitGenesis` fails it panics with that call as the last one.  No response is
returned in any of the three cases. -/
theorem initChainer_returns_iff {T : Types} (env : Env T) (ctx : T.Context)
    (req : RequestInitChain T) :
    ((∃ resp, (initChainer env ctx req).outcome = Except.ok resp) ↔
        ∃ g, env.unmarshalJSON req.appStateBytes = Except.ok g
          ∧ (afterStake env ctx g).2 = none ∧ (afterCLP env ctx g).2 = none)
      ∧ (∀ err, env.unmarshalJSON req.appStateBytes = Except.error err →
          (initChainer env ctx req).outcome = Except.error err
            ∧ (initChainer env ctx req).ctx = ctx
            ∧ (initChainer env ctx req).trace = [])
      ∧ (∀ g err, env.unmarshalJSON req.appStateBytes = Except.ok g →
          (afterStake env ctx g).2 = some err →
          (initChainer env ctx req).outcome = Except.error err
            ∧ (initChainer env ctx req).trace =
                storeCalls (assignedAccounts env g.accounts ctx)
                  ++ [Call.stakeInitGenesis g.stakeData])
      ∧ (∀ g err, env.unmarshalJSON req.appStateBytes = Except.ok g →
          (afterStake env ctx g).2 = none → (afterCLP env ctx g).2 = some err →
          (initChainer env ctx req).outcome = Except.error err
            ∧ (initChainer env ctx req).trace =
                storeCalls (assignedAccounts env g.accounts ctx)
                  ++ [Call.stakeInitGenesis g.stakeData,
                      Call.govInitGenesis env.govDefaultGenesisState,
                      Call.clpInitGenesis g.clpGenesis]) := by
  refine ⟨⟨?_, ?_⟩, ?_, ?_, ?_⟩
  · rintro ⟨resp, h⟩
    cases hdec : env.unmarshalJSON req.appStateBytes with
    | error err =>
      rw [initChainer_of_undecoded env ctx req err hdec] at h
      cases h
    | ok g =>
      refine ⟨g, rfl, ?_⟩
      rw [initChainer_of_decoded env ctx req g hdec] at h
      cases h1 : (afterStake env ctx g).2 with
      | some err => rw [h1] at h; cases h
      | none =>
        rw [h1] at h
        cases h2 : (afterCLP env ctx g).2 with
        | some err => rw [h2] at h; cases h
        | none => exact ⟨rfl, rfl⟩
  · rintro ⟨g, hdec, h1, h2⟩
    rw [initChainer_of_decoded env ctx req g hdec, h1, h2]
    exact ⟨_, rfl⟩
  · intro err hdec
    rw [initChainer_of_undecoded env ctx req err hdec]
    exact ⟨rfl, rfl, rfl⟩
  · intro g err hdec h1
    rw [initChainer_of_decoded env ctx req g hdec, h1]
    exact ⟨rfl, rfl⟩
  · intro g err hdec h1 h2
    rw [initChainer_of_decoded env ctx req g hdec, h1, h2]
    exact ⟨rfl, rfl⟩

/-- C3, on the reference instance: bytes that do not decode leave the store untouched; a
document that the pool module refuses ends at the pool call; the reference document is
accepted. -/
theorem initChainer_returns_iff_witness :
    ((initChainer simEnv simState { appStateBytes := none }).outcome
          = Except.error "malformed genesis document"
        ∧ (initChainer simEnv simState { appStateBytes := none }).ctx = simState
        ∧ (initChainer simEnv simState { appStateBytes := none }).trace = [])
      ∧ ((initChainer simEnv simFresh { appStateBytes := some ([], 5, 0) }).outcome
          = Except.error "empty liquidity pool genesis"
        ∧ (initChainer simEnv simFresh { appStateBytes := some ([], 5, 0) }).trace
          = storeCalls (assignedAccounts simEnv [] simFresh)
              ++ [Call.stakeInitGenesis 5, Call.govInitGenesis 0, Call.clpInitGenesis 0])
      ∧ ∃ resp, (initChainer simEnv simFresh { appStateBytes := simGenesisBytes }).outcome
          = Except.ok resp :=
  ⟨(initChainer_returns_iff simEnv simState { appStateBytes := none }).2.1 _ rfl,
   (initChainer_returns_iff simEnv simFresh { appStateBytes := some ([], 5, 0) }).2.2.2
      { accounts := [], stakeData := 5, clpGenesis := 0 } _ rfl rfl rfl,
   (initChainer_returns_iff simEnv simFresh { appStateBytes := simGenesisBytes }).1.mpr
      ⟨simGenesis, rfl, rfl, rfl⟩⟩

/-! ## Block hooks -/

/-- C5: `EndBlocker` calls the stake end-of-block hook first and the governance
end-of-block hook second, on the context the stake hook left; the validator updates of
its response are exactly those the stake hook returned and its tags exactly those the
governance hook returned (the stake hook returns no tags). -/
theorem EndBlocker_hooks {T : Types} (env : Env T) (ctx : T.Context)
    (req : T.RequestEndBlock) :
    (EndBlocker env ctx req).2.2 = [Call.stakeEndBlocker, Call.govEndBlocker]
      ∧ (EndBlocker env ctx req).1.validatorUpdates = (env.stakeEndBlocker ctx).1
      ∧ (EndBlocker env ctx req).1.tags
          = (env.govEndBlocker (env.stakeEndBlocker ctx).2).1.1
      ∧ (EndBlocker env ctx req).2.1 = (env.govEndBlocker (env.stakeEndBlocker ctx).2).2 :=
  ⟨rfl, rfl, rfl, rfl⟩

/-- C6: `BeginBlocker` makes exactly one call, the slashing begin-of-block hook, with the
request it was given, and the tags of its response are the tags the hook returned, as
key-value pairs in the same order. -/
theorem BeginBlocker_hook {T : Types} (env : Env T) (ctx : T.Context)
    (req : T.RequestBeginBlock) :
    (BeginBlocker env ctx req).2.2 = [Call.slashingBeginBlocker req]
      ∧ (BeginBlocker env ctx req).1.tags = (env.slashingBeginBlocker ctx req).1
      ∧ (BeginBlocker env ctx req).1.tags
          = Tags.ToKVPairs (env.slashingBeginBlocker ctx req).1
      ∧ (BeginBlocker env ctx req).2.1 = (env.slashingBeginBlocker ctx req).2 :=
  ⟨rfl, rfl, rfl, rfl⟩

/-! ## State export -/

theorem IterateAccounts_appendAccount {T : Types} (env : Env T) (stored : List Account)
    (accounts : List T.GenesisAccount) :
    IterateAccounts (appendAccount env) stored accounts
      = accounts ++ stored.map env.newGenesisAccountI := by
  induction stored generalizing accounts with
  | nil => simp [IterateAccounts]
  | cons acc rest ih =>
    simp only [IterateAccounts, appendAccount]
    rw [ih]
    simp

/-- C9: the callback of the export never asks the iteration to stop; the account list of
the exported document holds one genesis account per stored account, in iteration order, so
its length is the number of stored accounts; the stake and pool parts are what
`stake.WriteGenesis` and `clp.WriteGenesis` return; and the result is the serialised
document with the validators of `stake.WriteValidators`. -/
theorem exportGenState_parts {T : Types} (env : Env T) (ctx : T.Context) :
    (∀ acc accounts, (appendAccount env acc accounts).2 = false)
      ∧ (exportGenState env ctx).accounts
          = (env.storedAccounts ctx).map env.newGenesisAccountI
      ∧ (exportGenState env ctx).accounts.length = (env.storedAccounts ctx).length
      ∧ (exportGenState env ctx).stakeData = env.stakeWriteGenesis ctx
      ∧ (exportGenState env ctx).clpGenesis = env.clpWriteGenesis ctx
      ∧ ExportAppStateAndValidators env ctx
          = (env.marshalJSONIndent (exportGenState env ctx)).map
              (fun appState => (appState, env.stakeWriteValidators ctx)) := by
  have hacc : (exportGenState env ctx).accounts
      = (env.storedAccounts ctx).map env.newGenesisAccountI := by
    simp [exportGenState, IterateAccounts_appendAccount]
  refine ⟨fun _ _ => rfl, hacc, ?_, rfl, rfl, ?_⟩
  · rw [hacc, List.length_map]
  · unfold ExportAppStateAndValidators
    simp only
    cases env.marshalJSONIndent (exportGenState env ctx) <;> rfl

/-! ## Governance genesis -/

theorem govInitCalls_of_returned {T : Types} (env : Env T) (ctx : T.Context)
    (req : RequestInitChain T) (resp : ResponseInitChain)
    (h : (initChainer env ctx req).outcome = Except.ok resp) :
    govInitCalls (initChainer env ctx req).trace = [env.govDefaultGenesisState] := by
  cases hdec : env.unmarshalJSON req.appStateBytes with
  | error err =>
    rw [initChainer_of_undecoded env ctx req err hdec] at h
    cases h
  | ok g =>
    rw [initChainer_of_decoded env ctx req g hdec] at h ⊢
    cases h1 : (afterStake env ctx g).2 with
    | some err => rw [h1] at h; cases h
    | none =>
      simp only
      cases h2 : (afterCLP env ctx g).2 with
      | some err =>
        simp only
        rw [govInitCalls_append, govInitCalls_storeCalls]
        rfl
      | none =>
        simp only
        rw [govInitCalls_append, govInitCalls_storeCalls]
        rfl

/-- C10: on any two genesis inputs on which `initChainer` succeeds, `gov.InitGenesis` is
called once, with the same argument, the default genesis state of the module, and the
context each run leaves is `clp.InitGenesis` applied to the context that
`gov.InitGenesis` made, with that default state, of the context `stake.InitGenesis`
left; and the exported document consists of the accounts, the stake part and the pool
part only, so two contexts that agree on these three export the same document, whatever
their governance state. -/
theorem govInitGenesis_independent {T : Types} (env : Env T) (ctx₁ ctx₂ : T.Context)
    (req₁ req₂ : RequestInitChain T) (resp₁ resp₂ : ResponseInitChain)
    (h₁ : (initChainer env ctx₁ req₁).outcome = Except.ok resp₁)
    (h₂ : (initChainer env ctx₂ req₂).outcome = Except.ok resp₂) :
    govInitCalls (initChainer env ctx₁ req₁).trace = [env.govDefaultGenesisState]
      ∧ govInitCalls (initChainer env ctx₂ req₂).trace
          = govInitCalls (initChainer env ctx₁ req₁).trace
      ∧ (∃ g₁ : GenesisState T, env.unmarshalJSON req₁.appStateBytes = Except.ok g₁
          ∧ (initChainer env ctx₁ req₁).ctx =
            (env.clpInitGenesis
              (env.govInitGenesis
                (env.stakeInitGenesis
                  (g₁.accounts.foldl
                    (fun c gacc => env.setAccount (env.getNextAccountNumber c).2
                      { env.toAccount gacc with
                        accountNumber := (env.getNextAccountNumber c).1 })
                    ctx₁)
                  g₁.stakeData).1
                env.govDefaultGenesisState)
              g₁.clpGenesis).1)
      ∧ (∃ g₂ : GenesisState T, env.unmarshalJSON req₂.appStateBytes = Except.ok g₂
          ∧ (initChainer env ctx₂ req₂).ctx =
            (env.clpInitGenesis
              (env.govInitGenesis
                (env.stakeInitGenesis
                  (g₂.accounts.foldl
                    (fun c gacc => env.setAccount (env.getNextAccountNumber c).2
                      { env.toAccount gacc with
                        accountNumber := (env.getNextAccountNumber c).1 })
                    ctx₂)
                  g₂.stakeData).1
                env.govDefaultGenesisState)
              g₂.clpGenesis).1)
      ∧ (∀ c, exportGenState env c =
          { accounts := (env.storedAccounts c).map env.newGenesisAccountI
            stakeData := env.stakeWriteGenesis c
            clpGenesis := env.clpWriteGenesis c })
      ∧ (∀ c c', env.storedAccounts c = env.storedAccounts c' →
          env.stakeWriteGenesis c = env.stakeWriteGenesis c' →
          env.clpWriteGenesis c = env.clpWriteGenesis c' →
          exportGenState env c = exportGenState env c') := by
  have hdoc : ∀ c, exportGenState env c =
      { accounts := (env.storedAccounts c).map env.newGenesisAccountI
        stakeData := env.stakeWriteGenesis c
        clpGenesis := env.clpWriteGenesis c } := by
    intro c
    simp [exportGenState, IterateAccounts_appendAccount]
  have hctx : ∀ (ctx : T.Context) (req : RequestInitChain T) (resp : ResponseInitChain),
      (initChainer env ctx req).outcome = Except.ok resp →
      ∃ g : GenesisState T, env.unmarshalJSON req.appStateBytes = Except.ok g
        ∧ (initChainer env ctx req).ctx =
          (env.clpInitGenesis
            (env.govInitGenesis
              (env.stakeInitGenesis
                (g.accounts.foldl
                  (fun c gacc => env.setAccount (env.getNextAccountNumber c).2
                    { env.toAccount gacc with
                      accountNumber := (env.getNextAccountNumber c).1 })
                  ctx)
                g.stakeData).1
              env.govDefaultGenesisState)
            g.clpGenesis).1 := by
    intro ctx req resp h
    obtain ⟨g, hdec, _, _, hc⟩ := initChainer_ctx_of_returned env ctx req resp h
    simp only [afterCLP, afterGov, afterStake, afterAccounts, loadAccounts_ctx_foldl] at hc
    exact ⟨g, hdec, hc⟩
  refine ⟨govInitCalls_of_returned env ctx₁ req₁ resp₁ h₁, ?_, hctx ctx₁ req₁ resp₁ h₁,
    hctx ctx₂ req₂ resp₂ h₂, hdoc, ?_⟩
  · rw [govInitCalls_of_returned env ctx₁ req₁ resp₁ h₁,
      govInitCalls_of_returned env ctx₂ req₂ resp₂ h₂]
  · intro c c' ha hs hc
    rw [hdoc c, hdoc c', ha, hs, hc]

/-- C10, on the reference instance: two different documents, on two different stores, one
of them with governance state 7; both runs leave the governance state at the default. -/
theorem govInitGenesis_independent_witness :
    (initChainer simEnv simFresh { appStateBytes := simGenesisBytes }).outcome
        = Except.ok ResponseInitChain.empty
      ∧ (initChainer simEnv simState { appStateBytes := some ([], 9, 3) }).outcome
        = Except.ok ResponseInitChain.empty
      ∧ simState.gov = 7
      ∧ (initChainer simEnv simFresh { appStateBytes := simGenesisBytes }).ctx.gov = 0
      ∧ (initChainer simEnv simState { appStateBytes := some ([], 9, 3) }).ctx.gov = 0
      ∧ govInitCalls (initChainer simEnv simFresh { appStateBytes := simGenesisBytes }).trace
        = [0]
      ∧ govInitCalls (initChainer simEnv simState { appStateBytes := some ([], 9, 3) }).trace
        = govInitCalls (initChainer simEnv simFresh { appStateBytes := simGenesisBytes }).trace
      ∧ (∃ g₂ : GenesisState simTypes, simEnv.unmarshalJSON (some ([], 9, 3)) = Except.ok g₂
          ∧ (initChainer simEnv simState { appStateBytes := some ([], 9, 3) }).ctx =
            (simEnv.clpInitGenesis
              (simEnv.govInitGenesis
                (simEnv.stakeInitGenesis
                  (g₂.accounts.foldl
                    (fun c gacc => simEnv.setAccount (simEnv.getNextAccountNumber c).2
                      { simEnv.toAccount gacc with
                        accountNumber := (simEnv.getNextAccountNumber c).1 })
                    simState)
                  g₂.stakeData).1
                simEnv.govDefaultGenesisState)
              g₂.clpGenesis).1)
      ∧ exportGenState simEnv simState = exportGenState simEnv { simState with gov := 0 } :=
  ⟨rfl, rfl, rfl, rfl, rfl,
    (govInitGenesis_independent simEnv simFresh simState { appStateBytes := simGenesisBytes }
      { appStateBytes := some ([], 9, 3) } _ _ rfl rfl).1,
    (govInitGenesis_independent simEnv simFresh simState { appStateBytes := simGenesisBytes }
      { appStateBytes := some ([], 9, 3) } _ _ rfl rfl).2.1,
    (govInitGenesis_independent simEnv simFresh simState { appStateBytes := simGenesisBytes }
      { appStateBytes := some ([], 9, 3) } _ _ rfl rfl).2.2.2.1,
    (govInitGenesis_independent simEnv simFresh simState { appStateBytes := simGenesisBytes }
      { appStateBytes := some ([], 9, 3) } _ _ rfl rfl).2.2.2.2.2 _ _ rfl rfl rfl⟩

/-! ## Store partitions and routes -/

/-- C7, as stated, fails: the balance manager `coinKeeper` is constructed with no store
key (the only key it reaches is that of the account manager it wraps, which the account
manager holds too), and the mounted partition `main` is handed to no manager. -/
theorem store_ownership_counterexample :
    (Keeper.storeKeys Keeper.coinKeeper).length = 0
      ∧ Keeper.reachableKeys 3 Keeper.coinKeeper = [keyAccount]
      ∧ Keeper.reachableKeys 3 Keeper.accountMapper = [keyAccount]
      ∧ keyMain ∈ mountedStores
      ∧ (owners keyMain).length = 0
      ∧ ¬ (∀ k : Keeper, k.storeKeys.length = 1)
      ∧ ¬ (∀ key ∈ mountedStores, (owners key).length = 1) := by
  refine ⟨by decide, by decide, by decide, by decide, by decide, ?_, ?_⟩
  · intro h
    exact absurd (h Keeper.coinKeeper) (by decide)
  · intro h
    exact absurd (h keyMain (by decide)) (by decide)

/-- C7, amended: seven of the eight managers (account, fee collector, cross-chain
transfer, stake, slashing, governance, liquidity-pool) are each constructed with exactly
one store key and no two of them with the same key; the balance manager is constructed
with no key, on top of the account manager; of the eight mounted partitions, `acc`,
`ibc`, `stake`, `slashing`, `gov`, `fee` and `clp` are each handed to exactly one manager
and `main` to none. -/
theorem store_ownership :
    (∀ k : Keeper, k ∈ Keeper.all)
      ∧ Keeper.all.Nodup
      ∧ Keeper.all.map Keeper.storeKeys =
          [[keyAccount], [keyFeeCollection], [], [keyIBC], [keyStake], [keySlashing],
           [keyGov], [keyCLP]]
      ∧ Keeper.dependsOn Keeper.coinKeeper = [Keeper.accountMapper]
      ∧ (Keeper.all.flatMap Keeper.storeKeys).Nodup
      ∧ mountedStores.Nodup
      ∧ mountedStores.map owners =
          [[], [Keeper.accountMapper], [Keeper.ibcMapper], [Keeper.stakeKeeper],
           [Keeper.slashingKeeper], [Keeper.govKeeper], [Keeper.feeCollectionKeeper],
           [Keeper.clpKeeper]] := by
  refine ⟨?_, by decide, by decide, by decide, by decide, by decide, by decide⟩
  intro k
  cases k <;> decide

theorem registerRoutes_eq_foldlM (rtr : Router) :
    registerRoutes rtr = routeTable.foldlM (fun r p => r.AddRoute p.1 p.2) rtr := by
  simp [registerRoutes, routeTable, List.foldlM]

theorem AddRoute_registered (rtr : Router) (r : String) (h : Handler)
    (hreg : rtr.registered r = true) :
    rtr.AddRoute r h = Except.error ("route " ++ r ++ " has already been registered") := by
  unfold Router.registered at hreg
  simp [Router.AddRoute, hreg]

theorem AddRoute_keeps (rtr rtr' : Router) (r kind : String) (h : Handler)
    (hadd : rtr.AddRoute r h = Except.ok rtr') (hreg : rtr.registered kind = true) :
    rtr'.registered kind = true := by
  unfold Router.AddRoute at hadd
  split at hadd
  · cases hadd
  · cases hadd
    unfold Router.registered at hreg ⊢
    simp only [List.any_append, hreg, Bool.true_or]

theorem foldlM_AddRoute_registered (l : List (String × Handler)) (rtr : Router)
    (kind : String) (hreg : rtr.registered kind = true) (hmem : kind ∈ l.map Prod.fst) :
    ∃ err, l.foldlM (fun r p => r.AddRoute p.1 p.2) rtr = Except.error err := by
  induction l generalizing rtr with
  | nil => simp at hmem
  | cons p rest ih =>
    simp only [List.foldlM, bind, Except.bind]
    cases hadd : rtr.AddRoute p.1 p.2 with
    | error err => exact ⟨err, rfl⟩
    | ok rtr' =>
      simp only
      have hreg' := AddRoute_keeps rtr rtr' p.1 kind p.2 hadd hreg
      simp only [List.map_cons, List.mem_cons] at hmem
      rcases hmem with hk | hk
      · subst hk
        rw [AddRoute_registered rtr _ p.2 hreg] at hadd
        cases hadd
      · exact ih rtr' hreg' hk

/-- C8: the `AddRoute` chain of `NewThorchainApp` registers the kinds bank, ibc, stake,
slashing, gov and clp, each exactly once, and succeeds on the new router; on the router of
the spec, registering a kind that already has a handler is an error, and the chain as a
whole fails when one of its kinds has already been registered, so that no application is
started. -/
theorem route_registration :
    routeTable.map Prod.fst = ["bank", "ibc", "stake", "slashing", "gov", "clp"]
      ∧ (routeTable.map Prod.fst).Nodup
      ∧ registerRoutes Router.new = Except.ok { routes := routeTable }
      ∧ (∀ load, load mountedStores keyMain = none →
          NewThorchainApp load
            = Except.ok { router := { routes := routeTable }, mounted := mountedStores })
      ∧ (∀ (rtr : Router) (r : String) (h : Handler), rtr.registered r = true →
          ∃ err, rtr.AddRoute r h = Except.error err)
      ∧ (∀ (rtr : Router) (kind : String), kind ∈ routeTable.map Prod.fst →
          rtr.registered kind = true → ∃ err, registerRoutes rtr = Except.error err) := by
  refine ⟨by decide, by decide, rfl, ?_, ?_, ?_⟩
  · intro load hload
    have hr : registerRoutes Router.new = Except.ok { routes := routeTable } := rfl
    simp [NewThorchainApp, hr, hload, bind, Except.bind]
  · intro rtr r h hreg
    exact ⟨_, AddRoute_registered rtr r h hreg⟩
  · intro rtr kind hmem hreg
    rw [registerRoutes_eq_foldlM]
    exact foldlM_AddRoute_registered routeTable rtr kind hreg hmem

/-- C8, on a router that already holds a handler for `gov`: a second registration of
`gov` is refused, and so is the whole chain. -/
theorem route_registration_witness :
    (Router.registered { routes := [("gov", { package := "gov", keepers := [] })] } "gov" = true)
      ∧ "gov" ∈ routeTable.map Prod.fst
      ∧ (∃ err, Router.AddRoute { routes := [("gov", { package := "gov", keepers := [] })] }
          "gov" { package := "gov", keepers := [Keeper.govKeeper] } = Except.error err)
      ∧ (∃ err, registerRoutes { routes := [("gov", { package := "gov", keepers := [] })] }
          = Except.error err) :=
  ⟨by decide, by decide,
    route_registration.2.2.2.2.1 _ "gov" _ (by decide),
    route_registration.2.2.2.2.2 _ "gov" (by decide) (by decide)⟩

/-! ## Export followed by genesis initialisation -/

theorem loadAccounts_stored {T : Types} (env : Env T)
    (hnext : ∀ c, env.storedAccounts (env.getNextAccountNumber c).2 = env.storedAccounts c)
    (hset : ∀ c acc, (∀ a ∈ env.storedAccounts c, a.address ≠ acc.address) →
      (env.storedAccounts (env.setAccount c acc)).Perm (acc :: env.storedAccounts c))
    (l : List T.GenesisAccount) (ctx : T.Context)
    (hnd : ((env.storedAccounts ctx).map Account.address
      ++ l.map (fun gacc => (env.toAccount gacc).address)).Nodup) :
    ((env.storedAccounts (loadAccounts env l ctx []).1).map Account.holdings).Perm
      ((env.storedAccounts ctx).map Account.holdings
        ++ l.map (fun gacc => (env.toAccount gacc).holdings)) := by
  induction l generalizing ctx with
  | nil => simp [loadAccounts]
  | cons gacc rest ih =>
    simp only [loadAccounts]
    rw [loadAccounts_ctx]
    have hnew : ∀ a ∈ env.storedAccounts (env.getNextAccountNumber ctx).2,
        a.address ≠ (env.toAccount gacc).address := by
      intro a ha heq
      rw [hnext] at ha
      rw [List.nodup_append] at hnd
      exact hnd.2.2 (List.mem_map.mpr ⟨a, ha, rfl⟩) (by simp [heq])
    have hperm := hset (env.getNextAccountNumber ctx).2
      { env.toAccount gacc with accountNumber := (env.getNextAccountNumber ctx).1 } hnew
    rw [hnext] at hperm
    have hnd' : ((env.storedAccounts (env.setAccount (env.getNextAccountNumber ctx).2
        { env.toAccount gacc with accountNumber := (env.getNextAccountNumber ctx).1 })).map
          Account.address ++ rest.map (fun gacc => (env.toAccount gacc).address)).Nodup := by
      refine (List.Perm.nodup_iff ?_).mpr hnd
      refine ((hperm.map Account.address).append_right _).trans ?_
      simp only [List.map_cons, List.cons_append]
      exact List.perm_middle.symm
    refine (ih _ hnd').trans ?_
    refine ((hperm.map Account.holdings).append_right _).trans ?_
    simp only [List.map_cons, List.cons_append]
    exact List.perm_middle.symm

/-- C4, as stated, fails on the reference instance, whose collaborators all round-trip:
the export of a store with governance state 7 and slashing state 1, given to `initChainer`
on the empty store, is accepted, and leaves governance at the default 0 and slashing
at 0. -/
theorem roundTrip_module_state_counterexample :
    ∃ run, roundTrip simEnv simState simFresh = some run
      ∧ run.outcome = Except.ok ResponseInitChain.empty
      ∧ simState.gov = 7 ∧ run.ctx.gov = 0
      ∧ simState.slashing = 1 ∧ run.ctx.slashing = 0
      ∧ ¬ (run.ctx.gov = simState.gov ∧ run.ctx.slashing = simState.slashing) :=
  ⟨_, rfl, rfl, rfl, rfl, rfl, rfl, by decide⟩

/-- C4, amended: with collaborators that round-trip (`RoundTripLaws`), for every state
whose export succeeds and whose stored accounts have pairwise different addresses, giving
the exported document to `initChainer` on a store without accounts succeeds and leaves the
same accounts with the same balances and sequence numbers, the same stake state and the
same liquidity-pool state, as seen by their exports; the governance state is initialised
from the default genesis state of the module, not from the exported state. -/
theorem roundTrip_reproduces {T : Types} (env : Env T) (s fresh : T.Context)
    (laws : RoundTripLaws env s) (bz : T.Bytes) (vals : List T.GenesisValidator)
    (hexp : ExportAppStateAndValidators env s = Except.ok (bz, vals))
    (hfresh : env.storedAccounts fresh = [])
    (hnd : ((env.storedAccounts s).map Account.address).Nodup) :
    ∃ run, roundTrip env s fresh = some run
      ∧ run.outcome = Except.ok ResponseInitChain.empty
      ∧ ((env.storedAccounts run.ctx).map Account.holdings).Perm
          ((env.storedAccounts s).map Account.holdings)
      ∧ env.stakeWriteGenesis run.ctx = env.stakeWriteGenesis s
      ∧ env.clpWriteGenesis run.ctx = env.clpWriteGenesis s
      ∧ govInitCalls run.trace = [env.govDefaultGenesisState] := by
  have hm : env.marshalJSONIndent (exportGenState env s) = Except.ok bz := by
    unfold ExportAppStateAndValidators at hexp
    simp only at hexp
    cases hmar : env.marshalJSONIndent (exportGenState env s) with
    | error err => rw [hmar] at hexp; cases hexp
    | ok b => rw [hmar] at hexp; cases hexp; rfl
  have hdec : env.unmarshalJSON
      (RequestInitChain.appStateBytes { appStateBytes := bz }) = Except.ok (exportGenState env s) :=
    laws.decode_encode _ _ hm
  have hacc : (exportGenState env s).accounts
      = (env.storedAccounts s).map env.newGenesisAccountI := by
    simp [exportGenState, IterateAccounts_appendAccount]
  have hst := laws.stake_init (afterAccounts env fresh (exportGenState env s))
  have hgov := laws.gov_init (afterStake env fresh (exportGenState env s)).1
  have hclp := laws.clp_init (afterGov env fresh (exportGenState env s))
  have hst1 : (afterStake env fresh (exportGenState env s)).2 = none := hst.1
  have hclp1 : (afterCLP env fresh (exportGenState env s)).2 = none := hclp.1
  have hhold : ∀ l : List Account,
      (l.map env.newGenesisAccountI).map (fun gacc => (env.toAccount gacc).holdings)
        = l.map Account.holdings := by
    intro l
    simp [laws.convert]
  have haddr : ∀ l : List Account,
      (l.map env.newGenesisAccountI).map (fun gacc => (env.toAccount gacc).address)
        = l.map Account.address := by
    intro l
    simp only [List.map_map]
    refine List.map_congr_left ?_
    intro a _
    exact congrArg Prod.fst (laws.convert a)
  have hload := loadAccounts_stored env laws.next_stored laws.set_stored
    (exportGenState env s).accounts fresh
    (by rw [hfresh, hacc, haddr]; simpa using hnd)
  rw [hfresh, hacc, hhold] at hload
  simp only [List.map_nil, List.nil_append] at hload
  refine ⟨initChainer env fresh { appStateBytes := bz }, ?_, ?_⟩
  · simp [roundTrip, hexp]
  · rw [initChainer_of_decoded env fresh _ (exportGenState env s) hdec, hst1, hclp1]
    refine ⟨rfl, ?_, ?_, ?_, ?_⟩
    · show ((env.storedAccounts (afterCLP env fresh (exportGenState env s)).1).map
        Account.holdings).Perm _
      have h1 : env.storedAccounts (afterCLP env fresh (exportGenState env s)).1
          = env.storedAccounts (afterAccounts env fresh (exportGenState env s)) :=
        hclp.2.2.1.trans (hgov.1.trans hst.2.2)
      rw [h1]
      simp only [afterAccounts, hacc]
      exact hload
    · exact hclp.2.2.2.trans (hgov.2.trans hst.2.1)
    · exact hclp.2.1
    · simp only
      rw [govInitCalls_append, govInitCalls_storeCalls]
      rfl

theorem simEnv_roundTripLaws (s : SimStore) (hclp : s.clp ≠ 0) : RoundTripLaws simEnv s where
  decode_encode := by
    intro g bz h
    cases h
    rfl
  convert := fun _ => rfl
  next_stored := fun _ => rfl
  set_stored := by
    intro c acc hnew
    have hany : c.accounts.any (fun a => a.address == acc.address) = false := by
      rw [List.any_eq_false]
      intro a ha
      simpa using hnew a ha
    show (simSetAccount c acc).accounts.Perm (acc :: c.accounts)
    simp only [simSetAccount, hany]
    exact List.perm_append_singleton acc c.accounts
  stake_init := fun _ => ⟨rfl, rfl, rfl⟩
  gov_init := fun _ => ⟨rfl, rfl⟩
  clp_init := by
    intro c
    show (simEnv.clpInitGenesis c s.clp).2 = none
      ∧ (simEnv.clpInitGenesis c s.clp).1.clp = s.clp
      ∧ (simEnv.clpInitGenesis c s.clp).1.accounts = c.accounts
      ∧ (simEnv.clpInitGenesis c s.clp).1.stake = c.stake
    simp [simEnv, hclp]

/-- C4, amended, on the reference instance. -/
theorem roundTrip_reproduces_witness :
    ExportAppStateAndValidators simEnv simState
        = Except.ok (some (simState.accounts, 5, 2), [5])
      ∧ simEnv.storedAccounts simFresh = []
      ∧ ((simEnv.storedAccounts simState).map Account.address).Nodup
      ∧ ∃ run, roundTrip simEnv simState simFresh = some run
        ∧ run.outcome = Except.ok ResponseInitChain.empty
        ∧ ((simEnv.storedAccounts run.ctx).map Account.holdings).Perm
            ((simEnv.storedAccounts simState).map Account.holdings)
        ∧ simEnv.stakeWriteGenesis run.ctx = simEnv.stakeWriteGenesis simState
        ∧ simEnv.clpWriteGenesis run.ctx = simEnv.clpWriteGenesis simState
        ∧ govInitCalls run.trace = [simEnv.govDefaultGenesisState] :=
  ⟨rfl, rfl, by decide,
    roundTrip_reproduces simEnv simState simFresh (simEnv_roundTripLaws simState (by decide))
      (some (simState.accounts, 5, 2)) [5] rfl rfl (by decide)⟩

end Thorchain
